import Mathlib

/-!
Shallow embedding of the props-bot core (src/props/bot/main.py):
the command parser (`parse_regex` / `parse`), the in-memory points ledger
(`PropsBot.props`, `PropsBot.operators`, `PropsBot.update`) and the
`/slack/events` request handler (`slack_events`), together with theorems
settling the specification claims about them.
-/

namespace PropsBot

/-- The character class `[A-Za-z0-9_-]` of `parse_regex` (main.py:29):
ASCII letters, ASCII digits, underscore and hyphen. -/
def isW (c : Char) : Bool :=
  (Nat.ble 65 c.toNat && Nat.ble c.toNat 90) ||
  (Nat.ble 97 c.toNat && Nat.ble c.toNat 122) ||
  (Nat.ble 48 c.toNat && Nat.ble c.toNat 57) ||
  c == '_' || c == '-'

/-- The character class `[0-9]` of the `operand` group of `parse_regex`. -/
def isDig (c : Char) : Bool :=
  Nat.ble 48 c.toNat && Nat.ble c.toNat 57

/-- Longest run of `[A-Za-z0-9_-]` characters at the front of the input:
the greedy `+` repetition used by the `target` and `prop` groups. -/
def takeW : List Char → List Char
  | [] => []
  | c :: r => if isW c then c :: takeW r else []

/-- Remainder of the input after the longest front run of `[A-Za-z0-9_-]`
characters. -/
def dropW : List Char → List Char
  | [] => []
  | c :: r => if isW c then dropW r else c :: r

/-- Result of `parse` (main.py:35-40): the `groupdict` of `parse_regex`,
each group `None` when unmatched. -/
structure Parsed where
  target : Option String
  prop : Option String
  operator : Option String
  operand : Option String
deriving DecidableEq, Repr

/-- The optional alternation `(?P<operator>\+\+|--|\+=|-=)?` of `parse_regex`:
first matching two-character token wins (the alternatives have pairwise
distinct two-character prefixes, so Python's left-to-right alternation order
is immaterial). Returns the matched token, if any, and the rest of the
input. -/
def matchOp : List Char → Option String × List Char
  | [] => (none, [])
  | [a] => (none, [a])
  | a :: b :: r =>
    if a = '+' ∧ b = '+' then (some "++", r)
    else if a = '-' ∧ b = '-' then (some "--", r)
    else if a = '+' ∧ b = '=' then (some "+=", r)
    else if a = '-' ∧ b = '=' then (some "-=", r)
    else (none, a :: b :: r)

/-- The optional group `(:(?P<prop>[A-Za-z0-9_-]+))?` of `parse_regex`: it
matches a literal colon followed by a nonempty greedy identifier run, and
matches empty (consuming nothing) when that fails. Returns the captured
`prop` group, if any, and the rest of the input. -/
def matchProp : List Char → Option String × List Char
  | [] => (none, [])
  | c :: r =>
    if c = ':' then
      match takeW r with
      | [] => (none, c :: r)
      | p => (some (String.mk p), dropW r)
    else (none, c :: r)

/-- One match attempt of `parse_regex` at a fixed start position, on the
suffix of the input starting there. The regex is
`target(:prop)?(operator)?(operand)?` with `target = [A-Za-z0-9_-]+` and
`operand = [0-9]`; since every group after `target` is optional, an attempt
succeeds exactly when the first character is in the `target` class, and no
greedy choice is ever backtracked (each optional group falls back to the
empty match, never forcing `target`/`prop` to give characters back). -/
def matchAt (s : List Char) : Option Parsed :=
  match s with
  | [] => none
  | c :: _ =>
    if isW c then
      let tgt := takeW s
      let rest1 := dropW s
      let pr := matchProp rest1
      let op := matchOp pr.2
      let opnd : Option String :=
        match op.2 with
        | [] => none
        | d :: _ => if isDig d then some (String.mk [d]) else none
      some ⟨some (String.mk tgt), pr.1, op.1, opnd⟩
    else none

/-- `re.search` semantics: try a match attempt at each start position from
the left; the first position where the attempt succeeds wins. -/
def searchFrom : List Char → Option Parsed
  | [] => none
  | c :: r =>
    match matchAt (c :: r) with
    | some p => some p
    | none => searchFrom r

/-- Embeds `parse` (main.py:35-40): `parse_regex.search(text)`, returning the
four named groups on a match and all-`None` otherwise. -/
def parse (text : String) : Parsed :=
  match searchFrom text.data with
  | some p => p
  | none => ⟨none, none, none, none⟩

/-- Association-list lookup: embeds Python dict key lookup. The embedded
dict operations below keep keys unique, so removing every binding of a key
(`eraseA`) coincides with `dict.pop`, and lookups agree with `dict` access
regardless of binding order. -/
def lookupA {κ β : Type} [DecidableEq κ] (k : κ) : List (κ × β) → Option β
  | [] => none
  | (k2, v) :: r => if k2 = k then some v else lookupA k r

/-- Python `d.get(k, default)`. -/
def getA {κ β : Type} [DecidableEq κ] (k : κ) (l : List (κ × β)) (d : β) : β :=
  (lookupA k l).getD d

/-- Removal of a key: the state effect of Python `d.pop(k, default)`. -/
def eraseA {κ β : Type} [DecidableEq κ] (k : κ) : List (κ × β) → List (κ × β)
  | [] => []
  | (k2, v) :: r => if k2 = k then eraseA k r else (k2, v) :: eraseA k r

/-- Python `d[k] = v`: bind `k` to `v`, dropping any previous binding. -/
def insertA {κ β : Type} [DecidableEq κ] (k : κ) (v : β) (l : List (κ × β)) :
    List (κ × β) :=
  eraseA k l ++ [(k, v)]

/-- A member's property map: Python dict from property name (`None` allowed
as a key) to integer value. -/
abbrev PropMap := List (Option String × Int)

/-- The class-level ledger `PropsBot.props`: Python dict from member name to
property map. -/
abbrev Ledger := List (String × PropMap)

/-- Python truthiness of an optional string, as tested by `if operator:` in
`PropsBot.update`: `None` and the empty string are falsy. -/
def truthy : Option String → Bool
  | none => false
  | some s => !s.isEmpty

/-- Decimal value of a digit string (most significant digit first). -/
def digitsToNat (l : List Char) : Nat :=
  l.foldl (fun a c => a * 10 + (c.toNat - 48)) 0

/-- Embeds the Python call `int(y)` appearing in the `+=`/`-=` lambdas of
`PropsBot.operators` (main.py:77-78): `int(None)` raises `TypeError` and a
non-numeric string raises `ValueError` (both modelled as `none`); a string
of decimal digits with an optional sign converts to its value. The regex
only ever produces a single-digit operand, which this covers. -/
def pyInt : Option String → Option Int
  | none => none
  | some s =>
    match s.data with
    | [] => none
    | '-' :: r =>
      if !r.isEmpty && r.all isDig then some (-(digitsToNat r : Int)) else none
    | '+' :: r =>
      if !r.isEmpty && r.all isDig then some ((digitsToNat r : Int)) else none
    | l => if l.all isDig then some ((digitsToNat l : Int)) else none

/-- Embeds the dispatch table `PropsBot.operators` (main.py:74-79). Looking
up an unknown key raises `KeyError` (modelled as the outer `none`); each
entry is a two-argument lambda, and the `+=`/`-=` entries call `int` on
their second argument, which can itself raise (inner `none`). -/
def operators (op : String) : Option (Int → Option String → Option Int) :=
  if op = "++" then some fun x _ => some (x + 1)
  else if op = "--" then some fun x _ => some (x - 1)
  else if op = "+=" then some fun x y => (pyInt y).map fun v => x + v
  else if op = "-=" then some fun x y => (pyInt y).map fun v => x - v
  else none

/-- Exceptions that can escape `PropsBot.update`. -/
inductive UpdateErr
  /-- `KeyError` from `PropsBot.operators[operator]` on an unknown operator. -/
  | keyError
  /-- `TypeError`/`ValueError` from `int(operand)` inside the `+=`/`-=`
  lambdas, in particular `int(None)` when the operand is missing. -/
  | typeError
deriving DecidableEq, Repr

/-- Python `str` of an optional string as interpolated by an f-string:
`None` prints as `"None"`. -/
def pyStr : Option String → String
  | none => "None"
  | some s => s

/-- The reply text `f'{name}:{prop} => {value}'` built in `PropsBot.update`
(main.py:140). -/
def message (name : String) (prop : Option String) (value : Int) : String :=
  name ++ ":" ++ pyStr prop ++ " => " ++ toString value

/-- The current stored value of `(name, prop)`:
`PropsBot.props.get(name, {}).get(prop, 0)` as read in `PropsBot.update`
(main.py:139), defaulting to 0 at every level. -/
def read (name : String) (prop : Option String) (props : Ledger) : Int :=
  getA prop (getA name props []) 0

/-- Embeds `PropsBot.update` (main.py:132-141). Returns the ledger after
the call together with either the reply message passed to `self.send` or
the exception that escaped. When the operator is truthy, the method first
pops the member's whole property map out of `PropsBot.props` and pops the
property's value out of that map, and only then evaluates
`PropsBot.operators[operator](prop_value, operand)`; if that evaluation
raises, the ledger is left with the member's entry removed (the returned
ledger reflects this partial mutation). -/
def update (name : String) (prop : Option String) (operator operand : Option String)
    (props : Ledger) : Ledger × Except UpdateErr String :=
  if truthy operator then
    let memberProps := getA name props []
    let props1 := eraseA name props
    match operators (operator.getD "") with
    | none => (props1, Except.error UpdateErr.keyError)
    | some f =>
      let propValue := getA prop memberProps 0
      let memberProps1 := eraseA prop memberProps
      match f propValue operand with
      | none => (props1, Except.error UpdateErr.typeError)
      | some nv =>
        let props2 := insertA name (insertA prop nv memberProps1) props1
        let value := getA prop (getA name props2 []) 0
        (props2, Except.ok (message name prop value))
  else
    (props, Except.ok (message name prop (read name prop props)))

/-- A single parsed command, as fed to `PropsBot.update` by the event
handler: the four groups returned by `parse`. -/
structure Op where
  name : String
  prop : Option String
  operator : Option String
  operand : Option String
deriving DecidableEq, Repr

/-- Applying a sequence of parsed commands to a ledger, each through
`PropsBot.update`, keeping the resulting ledger of every step (whether the
step succeeded or raised). -/
def applyOps (ops : List Op) (props : Ledger) : Ledger :=
  ops.foldl (fun l o => (update o.name o.prop o.operator o.operand l).1) props

/-- A Slack workspace member as returned by `users.list`: its `id` and
display `name` fields. -/
structure Member where
  id : String
  name : String
deriving DecidableEq, Repr

/-- The fields of the inbound message event that the handler reads, each
absent when the key is missing from the JSON object. -/
structure Event where
  channel : Option String
  text : Option String
  username : Option String
deriving DecidableEq, Repr

/-- The inbound request body of `/slack/events`: an optional `challenge`
field and an optional `event` object. -/
structure Body where
  challenge : Option String
  event : Option Event
deriving DecidableEq, Repr

/-- The external Slack API responses consulted during one request:
`users.list` (the member directory; `none` models a response without a
`members` field, which raises) and `channels.info` for the event's channel
(`none` models a response without a usable `members` list, which raises). -/
structure SlackEnv where
  usersList : Option (List Member)
  channelMembers : Option (List String)
deriving DecidableEq, Repr

/-- Exceptions that can escape the `/slack/events` handler. -/
inductive HandlerErr
  /-- `AttributeError` from `json.event` or `json.event.channel` on a body
  missing those keys. -/
  | attrError
  /-- `EventTextError` from `PropsBot.text` when the event has no `text`. -/
  | eventText
  /-- The exception raised by `PropsBot.members` when `users.list` has no
  `members` field (a `NameError` in the source, which misspells
  `MembersListError` at the raise site; either way the request dies here). -/
  | membersList
  /-- `ChannelsInfoError` (or `AttributeError`) from `PropsBot.channels_info`
  when `channels.info` has no usable channel members. -/
  | channelsInfo
  /-- An exception escaping `PropsBot.update`. -/
  | updateErr (e : UpdateErr)
deriving DecidableEq, Repr

/-- Embeds `PropsBot.members_in_channel` (main.py:118-120): the display
names of the `users.list` members whose ids appear in the channel's member
id list. The list comprehension evaluates `self.members` first and
`self.channels_info` once per member, so a `channels.info` failure is only
reached when the member directory is nonempty. -/
def members_in_channel (env : SlackEnv) : Except HandlerErr (List String) :=
  match env.usersList with
  | none => Except.error HandlerErr.membersList
  | some users =>
    match users with
    | [] => Except.ok []
    | _ =>
      match env.channelMembers with
      | none => Except.error HandlerErr.channelsInfo
      | some cm => Except.ok ((users.filter fun m => cm.contains m.id).map Member.name)

/-- Embeds the `/slack/events` handler (main.py:178-197), with the external
Slack responses supplied in `env`. Returns the ledger after the request,
the list of `chat.postMessage` texts sent, and either the HTTP 200 body or
the exception that escaped the handler (which the web framework turns into
an error response; no reply is sent in that case). The handler answers a
`challenge` immediately; drops events from other channels that carry text,
and events from the bot user itself; then parses the event text and runs
`PropsBot.update` only when the parsed target is a member name of the
originating channel. -/
def slack_events (cfgChannelId : String) (env : SlackEnv) (body : Body)
    (props : Ledger) : Ledger × List String × Except HandlerErr String :=
  match body.challenge with
  | some ch => (props, [], Except.ok ch)
  | none =>
    match body.event with
    | none => (props, [], Except.error HandlerErr.attrError)
    | some ev =>
      match ev.channel with
      | none => (props, [], Except.error HandlerErr.attrError)
      | some ch =>
        if ch ≠ cfgChannelId ∧ ev.text.isSome then (props, [], Except.ok "")
        else if ev.username = some "props" then (props, [], Except.ok "")
        else
          match ev.text with
          | none => (props, [], Except.error HandlerErr.eventText)
          | some t =>
            let p := parse t
            match members_in_channel env with
            | Except.error e => (props, [], Except.error e)
            | Except.ok ms =>
              match p.target with
              | none => (props, [], Except.ok "")
              | some n =>
                if n ∈ ms then
                  match update n p.prop p.operator p.operand props with
                  | (props2, Except.ok msg) => (props2, [msg], Except.ok "")
                  | (props2, Except.error e) =>
                    (props2, [], Except.error (HandlerErr.updateErr e))
                else (props, [], Except.ok "")

/-- A concrete request exercising the membership gate: well-formed command
text naming `alice`, sent in channel `C`. -/
def exampleBody : Body := ⟨none, some ⟨some "C", some "alice++", none⟩⟩

/-- A directory whose only channel member is named `bob`. -/
def exampleEnv : SlackEnv := ⟨some [⟨"U1", "bob"⟩], some ["U1"]⟩

/-- A ledger holding one value for `bob`. -/
def exampleLedger : Ledger := [("bob", [(none, 5)])]

/-- A concrete request whose update fails: `+=` with no operand, naming
`alice`, sent in channel `C`. -/
def exampleBody2 : Body := ⟨none, some ⟨some "C", some "alice+=", none⟩⟩

/-- A directory whose only channel member is named `alice`. -/
def exampleEnv2 : SlackEnv := ⟨some [⟨"U2", "alice"⟩], some ["U2"]⟩

/-- The target name the handler would act on: the `target` group of the
parse of the event's text, when the body carries an event with text. -/
def eventTarget (body : Body) : Option String :=
  match body.event with
  | none => none
  | some ev =>
    match ev.text with
    | none => none
    | some t => (parse t).target

theorem lookupA_eraseA_self {κ β : Type} [DecidableEq κ] (k : κ) (l : List (κ × β)) :
    lookupA k (eraseA k l) = none := by
  induction l with
  | nil => rfl
  | cons hd tl ih =>
    obtain ⟨k2, v⟩ := hd
    by_cases h : k2 = k
    · simp [eraseA, h, ih]
    · simp [eraseA, lookupA, h, ih]

theorem lookupA_eraseA_ne {κ β : Type} [DecidableEq κ] {k2 k : κ} (l : List (κ × β))
    (h : k2 ≠ k) : lookupA k2 (eraseA k l) = lookupA k2 l := by
  induction l with
  | nil => rfl
  | cons hd tl ih =>
    obtain ⟨k3, v⟩ := hd
    by_cases h3 : k3 = k
    · subst h3
      rw [eraseA, if_pos rfl, ih, lookupA, if_neg (Ne.symm h)]
    · rw [eraseA, if_neg h3, lookupA, lookupA]
      by_cases h2 : k3 = k2
      · rw [if_pos h2, if_pos h2]
      · rw [if_neg h2, if_neg h2, ih]

theorem lookupA_append_none {κ β : Type} [DecidableEq κ] {k : κ} {l1 : List (κ × β)}
    (l2 : List (κ × β)) (h : lookupA k l1 = none) :
    lookupA k (l1 ++ l2) = lookupA k l2 := by
  induction l1 with
  | nil => rfl
  | cons hd tl ih =>
    obtain ⟨k3, v⟩ := hd
    rw [lookupA] at h
    by_cases h3 : k3 = k
    · rw [if_pos h3] at h; exact absurd h (by simp)
    · rw [if_neg h3] at h
      rw [List.cons_append, lookupA, if_neg h3, ih h]

theorem lookupA_append_some {κ β : Type} [DecidableEq κ] {k : κ} {v : β}
    {l1 : List (κ × β)} (l2 : List (κ × β)) (h : lookupA k l1 = some v) :
    lookupA k (l1 ++ l2) = some v := by
  induction l1 with
  | nil => exact absurd h (by simp [lookupA])
  | cons hd tl ih =>
    obtain ⟨k3, v3⟩ := hd
    rw [lookupA] at h
    by_cases h3 : k3 = k
    · rw [if_pos h3] at h
      rw [List.cons_append, lookupA, if_pos h3]
      exact h
    · rw [if_neg h3] at h
      rw [List.cons_append, lookupA, if_neg h3, ih h]

theorem lookupA_insertA_self {κ β : Type} [DecidableEq κ] (k : κ) (v : β)
    (l : List (κ × β)) : lookupA k (insertA k v l) = some v := by
  rw [insertA, lookupA_append_none _ (lookupA_eraseA_self k l), lookupA, if_pos rfl]

theorem lookupA_insertA_ne {κ β : Type} [DecidableEq κ] {k2 k : κ} (v : β)
    (l : List (κ × β)) (h : k2 ≠ k) :
    lookupA k2 (insertA k v l) = lookupA k2 l := by
  rw [insertA]
  cases hl : lookupA k2 (eraseA k l) with
  | some v2 =>
    rw [lookupA_append_some _ hl, ← lookupA_eraseA_ne l h, hl]
  | none =>
    rw [lookupA_append_none _ hl, ← lookupA_eraseA_ne l h, hl, lookupA,
      if_neg (Ne.symm h)]
    rfl

theorem isW_of_isDig {c : Char} (h : isDig c = true) : isW c = true := by
  rw [isDig] at h
  rw [isW, h]
  simp

theorem isW_false_of_dropW {l : List Char} {c : Char} {r : List Char}
    (h : dropW l = c :: r) : isW c = false := by
  induction l with
  | nil => exact absurd h (by simp [dropW])
  | cons a t ih =>
    by_cases ha : isW a
    · rw [dropW, if_pos ha] at h
      exact ih h
    · rw [dropW, if_neg ha] at h
      injection h with h1 _
      subst h1
      exact Bool.not_eq_true _ ▸ (by simpa using ha)

theorem matchProp_snd_not_isW {s : List Char} {c2 : Char} {r2 : List Char}
    (h : (matchProp (dropW s)).2 = c2 :: r2) : isW c2 = false := by
  cases hl : dropW s with
  | nil => rw [hl] at h; exact absurd h (by simp [matchProp])
  | cons c r =>
    have hc : isW c = false := isW_false_of_dropW hl
    rw [hl, matchProp] at h
    by_cases hcol : c = ':'
    · rw [if_pos hcol] at h
      cases ht : takeW r with
      | nil =>
        rw [ht] at h
        injection h with h1 _
        subst h1
        exact hc
      | cons p ps =>
        rw [ht] at h
        exact isW_false_of_dropW (l := r) h
    · rw [if_neg hcol] at h
      injection h with h1 _
      subst h1
      exact hc

theorem matchOp_none_snd {s : List Char} (h : (matchOp s).1 = none) :
    (matchOp s).2 = s := by
  match s with
  | [] => rfl
  | [a] => rfl
  | a :: b :: r =>
    rw [matchOp] at h ⊢
    by_cases h1 : a = '+' ∧ b = '+'
    · rw [if_pos h1] at h; exact absurd h (by simp)
    · rw [if_neg h1] at h ⊢
      by_cases h2 : a = '-' ∧ b = '-'
      · rw [if_pos h2] at h; exact absurd h (by simp)
      · rw [if_neg h2] at h ⊢
        by_cases h3 : a = '+' ∧ b = '='
        · rw [if_pos h3] at h; exact absurd h (by simp)
        · rw [if_neg h3] at h ⊢
          by_cases h4 : a = '-' ∧ b = '='
          · rw [if_pos h4] at h; exact absurd h (by simp)
          · rw [if_neg h4]

theorem matchOp_fst_cases {s : List Char} {o : String} (h : (matchOp s).1 = some o) :
    o = "++" ∨ o = "--" ∨ o = "+=" ∨ o = "-=" := by
  match s with
  | [] => exact absurd h (by simp [matchOp])
  | [a] => exact absurd h (by simp [matchOp])
  | a :: b :: r =>
    rw [matchOp] at h
    split at h
    · exact Or.inl (by simpa using h.symm)
    · split at h
      · exact Or.inr (Or.inl (by simpa using h.symm))
      · split at h
        · exact Or.inr (Or.inr (Or.inl (by simpa using h.symm)))
        · split at h
          · exact Or.inr (Or.inr (Or.inr (by simpa using h.symm)))
          · exact absurd h (by simp)

theorem matchAt_operand_operator {s : List Char} {p : Parsed}
    (hm : matchAt s = some p) (ho : p.operand ≠ none) :
    p.operator = some "++" ∨ p.operator = some "--" ∨
      p.operator = some "+=" ∨ p.operator = some "-=" := by
  match s with
  | [] => exact absurd hm (by simp [matchAt])
  | c :: t =>
    rw [matchAt] at hm
    by_cases hw : isW c
    · rw [if_pos hw] at hm
      injection hm with hm
      subst hm
      simp only [] at ho ⊢
      cases hop : (matchOp (matchProp (dropW (c :: t))).2).1 with
      | some o =>
        rcases matchOp_fst_cases hop with h | h | h | h <;> simp [h]
      | none =>
        exfalso
        have hsnd := matchOp_none_snd hop
        cases hrest : (matchOp (matchProp (dropW (c :: t))).2).2 with
        | nil => rw [hrest] at ho; exact ho rfl
        | cons d ds =>
          rw [hrest] at ho
          by_cases hd : isDig d
          · have hnw : isW d = false :=
              matchProp_snd_not_isW (s := c :: t) (hsnd.symm.trans hrest)
            rw [isW_of_isDig hd] at hnw
            exact absurd hnw (by simp)
          · simp [hd] at ho
    · rw [if_neg hw] at hm
      exact absurd hm (by simp)

theorem searchFrom_matchAt {l : List Char} {p : Parsed}
    (h : searchFrom l = some p) : ∃ s, matchAt s = some p := by
  induction l with
  | nil => exact absurd h (by simp [searchFrom])
  | cons c r ih =>
    rw [searchFrom] at h
    cases hm : matchAt (c :: r) with
    | some q =>
      rw [hm] at h
      injection h with h
      exact ⟨c :: r, h ▸ hm⟩
    | none =>
      rw [hm] at h
      exact ih h

theorem operators_inc : operators "++" = some fun x _ => some (x + 1) := rfl

theorem operators_dec : operators "--" = some fun x _ => some (x - 1) := rfl

theorem operators_addeq :
    operators "+=" = some fun x y => (pyInt y).map fun v => x + v := rfl

theorem operators_subeq :
    operators "-=" = some fun x y => (pyInt y).map fun v => x - v := rfl

theorem update_not_truthy (name : String) (prop : Option String)
    (operator operand : Option String) (props : Ledger)
    (htr : truthy operator = false) :
    update name prop operator operand props =
      (props, Except.ok (message name prop (read name prop props))) := by
  rw [update, if_neg (by simp [htr])]

theorem update_ok_spec (name : String) (prop : Option String) (op : String)
    (f : Int → Option String → Option Int) (operand : Option String) (nv : Int)
    (props : Ledger) (htr : truthy (some op) = true) (hop : operators op = some f)
    (hf : f (read name prop props) operand = some nv) :
    update name prop (some op) operand props =
      (insertA name (insertA prop nv (eraseA prop (getA name props [])))
        (eraseA name props),
       Except.ok (message name prop nv)) := by
  rw [read] at hf
  simp only [update, htr, if_true, Option.getD_some, hop, hf]
  simp [getA, lookupA_insertA_self]

theorem update_raise (name : String) (prop : Option String) (op : String)
    (f : Int → Option String → Option Int) (operand : Option String)
    (props : Ledger) (htr : truthy (some op) = true) (hop : operators op = some f)
    (hf : f (read name prop props) operand = none) :
    update name prop (some op) operand props =
      (eraseA name props, Except.error UpdateErr.typeError) := by
  rw [read] at hf
  simp only [update, htr, if_true, Option.getD_some, hop, hf]

theorem update_keyerror (name : String) (prop : Option String) (op : String)
    (operand : Option String) (props : Ledger)
    (htr : truthy (some op) = true) (hop : operators op = none) :
    update name prop (some op) operand props =
      (eraseA name props, Except.error UpdateErr.keyError) := by
  simp only [update, htr, if_true, Option.getD_some, hop]

theorem update_lookupA_frame (name : String) (prop : Option String)
    (operator operand : Option String) (props : Ledger) {t : String}
    (ht : t ≠ name) :
    lookupA t (update name prop operator operand props).1 = lookupA t props := by
  cases operator with
  | none => rw [update_not_truthy name prop none operand props rfl]
  | some opStr =>
    by_cases htr : truthy (some opStr) = true
    · cases hop : operators opStr with
      | none =>
        rw [update_keyerror _ _ _ _ _ htr hop]
        exact lookupA_eraseA_ne _ ht
      | some f =>
        cases hf : f (read name prop props) operand with
        | none =>
          rw [update_raise _ _ _ _ _ _ htr hop hf]
          exact lookupA_eraseA_ne _ ht
        | some nv =>
          rw [update_ok_spec _ _ _ _ _ _ _ htr hop hf]
          rw [lookupA_insertA_ne _ _ ht, lookupA_eraseA_ne _ ht]
    · rw [update_not_truthy _ _ _ _ _ (by simpa using htr)]

theorem read_congr_lookup {t : String} {p : Option String} {l1 l2 : Ledger}
    (h : lookupA t l1 = lookupA t l2) : read t p l1 = read t p l2 := by
  simp only [read, getA, h]

theorem update_read_zero (name : String) (prop : Option String)
    (operator operand : Option String) (props : Ledger) {t : String}
    {p : Option String} (h0 : read t p props = 0)
    (h : truthy operator = true → ¬(name = t ∧ prop = p)) :
    read t p (update name prop operator operand props).1 = 0 := by
  cases operator with
  | none =>
    rw [update_not_truthy name prop none operand props rfl]
    exact h0
  | some opStr =>
    by_cases htr : truthy (some opStr) = true
    · by_cases htn : t = name
      · subst htn
        have hpp : prop ≠ p := fun hp => (h htr) ⟨rfl, hp⟩
        cases hop : operators opStr with
        | none =>
          rw [update_keyerror _ _ _ _ _ htr hop]
          simp [read, getA, lookupA, lookupA_eraseA_self]
        | some f =>
          cases hf : f (read t prop props) operand with
          | none =>
            rw [update_raise _ _ _ _ _ _ htr hop hf]
            simp [read, getA, lookupA, lookupA_eraseA_self]
          | some nv =>
            rw [update_ok_spec _ _ _ _ _ _ _ htr hop hf]
            simp only [read, getA, lookupA_insertA_self, Option.getD_some]
            rw [lookupA_insertA_ne _ _ (Ne.symm hpp),
              lookupA_eraseA_ne _ (Ne.symm hpp)]
            simpa [read, getA] using h0
      · rw [read_congr_lookup
          (update_lookupA_frame name prop (some opStr) operand props htn)]
        exact h0
    · rw [update_not_truthy _ _ _ _ _ (by simpa using htr)]
      exact h0

theorem applyOps_read_zero (ops : List Op) (props : Ledger) {t : String}
    {p : Option String} (h0 : read t p props = 0)
    (h : ∀ o ∈ ops, truthy o.operator = true → ¬(o.name = t ∧ o.prop = p)) :
    read t p (applyOps ops props) = 0 := by
  induction ops generalizing props with
  | nil => exact h0
  | cons o rest ih =>
    rw [applyOps, List.foldl_cons]
    exact ih _
      (update_read_zero o.name o.prop o.operator o.operand props h0 (h o (by simp)))
      (fun o2 ho2 => h o2 (by simp [ho2]))

theorem update_ok_reads (name : String) (prop : Option String) (op : String)
    (f : Int → Option String → Option Int) (operand : Option String) (nv : Int)
    (props : Ledger) (htr : truthy (some op) = true) (hop : operators op = some f)
    (hf : f (read name prop props) operand = some nv) :
    (update name prop (some op) operand props).2 = Except.ok (message name prop nv)
    ∧ read name prop (update name prop (some op) operand props).1 = nv
    ∧ ∀ n2 p2, ¬(n2 = name ∧ p2 = prop) →
        read n2 p2 (update name prop (some op) operand props).1 =
          read n2 p2 props := by
  have he := update_ok_spec name prop op f operand nv props htr hop hf
  refine ⟨by rw [he], ?_, ?_⟩
  · rw [he]
    simp [read, getA, lookupA_insertA_self]
  · intro n2 p2 hne
    by_cases hn2 : n2 = name
    · subst hn2
      have hpp : p2 ≠ prop := fun hp => hne ⟨rfl, hp⟩
      rw [he]
      simp only [read, getA, lookupA_insertA_self, Option.getD_some]
      rw [lookupA_insertA_ne _ _ hpp, lookupA_eraseA_ne _ hpp]
    · exact read_congr_lookup
        (update_lookupA_frame name prop (some op) operand props hn2)

/-- C10: the parser maps the spec's example inputs to exactly the stated
tuples: `parse("alice++")` is `("alice", None, "++", None)` and
`parse("alice:coffee+=3")` is `("alice", "coffee", "+=", "3")`. -/
theorem C10_parse_examples :
    parse "alice++" = ⟨some "alice", none, some "++", none⟩
    ∧ parse "alice:coffee+=3" = ⟨some "alice", some "coffee", some "+=", some "3"⟩ :=
  ⟨rfl, rfl⟩

/-- C1: what the code actually does on the claim's input. The hyphen is
inside the regex identifier class, so the greedy `target` group of
`parse_regex.search("bob--")` consumes the whole string and no operator or
operand is captured. Applying the parsed result twice to a fresh ledger
therefore performs no mutation at all: both applies report 0 (for the
parsed target `"bob--"`), and both `(bob, None)` and `(bob--, None)` still
read 0 afterwards — not the value sequence 0 → -1 → -2 the claim states. -/
theorem C1_bob_decrement_behavior :
    parse "bob--" = ⟨some "bob--", none, none, none⟩
    ∧ update "bob--" none none none [] = ([], Except.ok "bob--:None => 0")
    ∧ update "bob--" none none none
        (update "bob--" none none none []).1 = ([], Except.ok "bob--:None => 0")
    ∧ read "bob--" none (update "bob--" none none none
        (update "bob--" none none none []).1).1 = 0
    ∧ read "bob" none (update "bob--" none none none
        (update "bob--" none none none []).1).1 = 0 :=
  ⟨rfl, rfl, rfl, rfl, rfl⟩

theorem matchOp_no_minus {s : List Char}
    (hs : ∀ c r, s = c :: r → isW c = false) :
    (matchOp s).1 ≠ some "--" ∧ (matchOp s).1 ≠ some "-=" := by
  match s with
  | [] => exact ⟨by simp [matchOp], by simp [matchOp]⟩
  | [a] => exact ⟨by simp [matchOp], by simp [matchOp]⟩
  | a :: b :: r =>
    have ha : isW a = false := hs a (b :: r) rfl
    have hna : a ≠ '-' := by
      intro hh
      rw [hh] at ha
      exact absurd ha (by decide)
    rw [matchOp]
    by_cases h1 : a = '+' ∧ b = '+'
    · rw [if_pos h1]; exact ⟨by simp, by simp⟩
    · rw [if_neg h1]
      by_cases h2 : a = '-' ∧ b = '-'
      · exact absurd h2.1 hna
      · rw [if_neg h2]
        by_cases h3 : a = '+' ∧ b = '='
        · rw [if_pos h3]; exact ⟨by simp, by simp⟩
        · rw [if_neg h3]
          by_cases h4 : a = '-' ∧ b = '='
          · exact absurd h4.1 hna
          · rw [if_neg h4]; exact ⟨by simp, by simp⟩

/-- Supporting evidence for C1: no input text whatsoever parses to the
operator `--` or `-=`. The operator group follows the greedy `target`/`prop`
identifier runs, so the character after them is never in `[A-Za-z0-9_-]` —
but both decrement tokens start with the hyphen, which that class contains,
making the `--` and `-=` alternatives of `parse_regex` (and the matching
entries of `PropsBot.operators`) unreachable. -/
theorem parse_minus_operators_unreachable (text : String) :
    (parse text).operator ≠ some "--" ∧ (parse text).operator ≠ some "-=" := by
  rw [parse]
  cases hs : searchFrom text.data with
  | none => exact ⟨by simp, by simp⟩
  | some p =>
    obtain ⟨s, hm⟩ := searchFrom_matchAt hs
    match s, hm with
    | [], hm => exact absurd hm (by simp [matchAt])
    | c :: t, hm =>
      rw [matchAt] at hm
      by_cases hw : isW c
      · rw [if_pos hw] at hm
        injection hm with hm
        subst hm
        exact matchOp_no_minus fun c2 r2 hr =>
          matchProp_snd_not_isW (s := c :: t) hr
      · rw [if_neg hw] at hm
        exact absurd hm (by simp)

/-- C2 counterexample: on input `"alice++5"` the parser returns the
non-null operand `"5"` paired with operator `"++"`, which is neither `"+="`
nor `"-="` — refuting the claim that a non-null operand only accompanies
`"+="` or `"-="`. -/
theorem C2_counterexample :
    (parse "alice++5").operand = some "5"
    ∧ (parse "alice++5").operator = some "++"
    ∧ (parse "alice++5").operator ≠ some "+="
    ∧ (parse "alice++5").operator ≠ some "-=" :=
  ⟨rfl, rfl, by decide, by decide⟩

/-- C2 (amended): for every input text, the parser returns a non-null
operand only when the returned operator is non-null — one of the four
tokens `++`, `--`, `+=`, `-=`; it never returns a non-null operand paired
with a null operator. -/
theorem C2_operand_requires_operator (text : String)
    (h : (parse text).operand ≠ none) :
    (parse text).operator = some "++" ∨ (parse text).operator = some "--" ∨
      (parse text).operator = some "+=" ∨ (parse text).operator = some "-=" := by
  rw [parse] at h ⊢
  cases hs : searchFrom text.data with
  | none => rw [hs] at h; exact absurd rfl h
  | some p =>
    rw [hs] at h
    obtain ⟨s, hm⟩ := searchFrom_matchAt hs
    exact matchAt_operand_operator hm h

/-- Witness for C2 (amended) at the concrete input `"alice++5"`. -/
theorem C2_witness :
    (parse "alice++5").operand ≠ none
    ∧ ((parse "alice++5").operator = some "++" ∨
        (parse "alice++5").operator = some "--" ∨
        (parse "alice++5").operator = some "+=" ∨
        (parse "alice++5").operator = some "-=") :=
  ⟨by decide, C2_operand_requires_operator "alice++5" (by decide)⟩

/-- C3: for every target, property and ledger, an update with `+=` or `-=`
and a missing operand fails with the `TypeError` raised by `int(None)`;
the missing operand is never coerced to a default value. -/
theorem C3_missing_operand_errors (name : String) (prop : Option String)
    (props : Ledger) :
    (update name prop (some "+=") none props).2 = Except.error UpdateErr.typeError
    ∧ (update name prop (some "-=") none props).2 =
        Except.error UpdateErr.typeError := by
  constructor
  · rw [update_raise name prop "+=" _ none props rfl operators_addeq rfl]
  · rw [update_raise name prop "-=" _ none props rfl operators_subeq rfl]

/-- C4: when `+=` or `-=` is applied with a null operand, the error is
raised only after the target's entry was popped from the ledger: the update
returns the `TypeError`, the resulting ledger has no entry at all for the
target, and every property previously stored for the target now reads 0. -/
theorem C4_failed_update_drops_target (name : String) (prop : Option String)
    (props : Ledger) :
    ((update name prop (some "+=") none props).2 = Except.error UpdateErr.typeError
      ∧ lookupA name (update name prop (some "+=") none props).1 = none
      ∧ ∀ p2, read name p2 (update name prop (some "+=") none props).1 = 0)
    ∧ ((update name prop (some "-=") none props).2 = Except.error UpdateErr.typeError
      ∧ lookupA name (update name prop (some "-=") none props).1 = none
      ∧ ∀ p2, read name p2 (update name prop (some "-=") none props).1 = 0) := by
  constructor
  · rw [update_raise name prop "+=" _ none props rfl operators_addeq rfl]
    exact ⟨rfl, lookupA_eraseA_self name props,
      fun p2 => by simp [read, getA, lookupA, lookupA_eraseA_self]⟩
  · rw [update_raise name prop "-=" _ none props rfl operators_subeq rfl]
    exact ⟨rfl, lookupA_eraseA_self name props,
      fun p2 => by simp [read, getA, lookupA, lookupA_eraseA_self]⟩

/-- C5: for every target, property and current value v (default 0),
applying `++` stores and reports v + 1, `--` stores and reports v - 1,
`+=` with decimal operand d stores and reports v + d, and `-=` with d
stores and reports v - d; the new value is stored at exactly
`(target, property)` — entries are created if absent, and every other
`(target, property)` pair is unchanged. -/
theorem C5_update_operator_semantics (name : String) (prop : Option String)
    (props : Ledger) (operand : Option String) (d : String) (dv : Int)
    (hd : pyInt (some d) = some dv) :
    ((update name prop (some "++") operand props).2 =
        Except.ok (message name prop (read name prop props + 1))
      ∧ read name prop (update name prop (some "++") operand props).1 =
          read name prop props + 1)
    ∧ ((update name prop (some "--") operand props).2 =
        Except.ok (message name prop (read name prop props - 1))
      ∧ read name prop (update name prop (some "--") operand props).1 =
          read name prop props - 1)
    ∧ ((update name prop (some "+=") (some d) props).2 =
        Except.ok (message name prop (read name prop props + dv))
      ∧ read name prop (update name prop (some "+=") (some d) props).1 =
          read name prop props + dv)
    ∧ ((update name prop (some "-=") (some d) props).2 =
        Except.ok (message name prop (read name prop props - dv))
      ∧ read name prop (update name prop (some "-=") (some d) props).1 =
          read name prop props - dv)
    ∧ ∀ n2 p2, ¬(n2 = name ∧ p2 = prop) →
        read n2 p2 (update name prop (some "++") operand props).1 = read n2 p2 props
        ∧ read n2 p2 (update name prop (some "--") operand props).1 = read n2 p2 props
        ∧ read n2 p2 (update name prop (some "+=") (some d) props).1 = read n2 p2 props
        ∧ read n2 p2 (update name prop (some "-=") (some d) props).1 = read n2 p2 props := by
  have hinc := update_ok_reads name prop "++" _ operand
    (read name prop props + 1) props rfl operators_inc rfl
  have hdec := update_ok_reads name prop "--" _ operand
    (read name prop props - 1) props rfl operators_dec rfl
  have haddeq := update_ok_reads name prop "+=" _ (some d)
    (read name prop props + dv) props rfl operators_addeq (by simp [hd])
  have hsubeq := update_ok_reads name prop "-=" _ (some d)
    (read name prop props - dv) props rfl operators_subeq (by simp [hd])
  exact ⟨⟨hinc.1, hinc.2.1⟩, ⟨hdec.1, hdec.2.1⟩, ⟨haddeq.1, haddeq.2.1⟩,
    ⟨hsubeq.1, hsubeq.2.1⟩,
    fun n2 p2 hne => ⟨hinc.2.2 n2 p2 hne, hdec.2.2 n2 p2 hne,
      haddeq.2.2 n2 p2 hne, hsubeq.2.2 n2 p2 hne⟩⟩

/-- Witness for C5 at a concrete input: target `alice`, property `coffee`,
empty ledger, operand `"3"`. -/
theorem C5_witness :
    pyInt (some "3") = some 3
    ∧ (update "alice" (some "coffee") (some "++") none []).2 =
        Except.ok (message "alice" (some "coffee") (read "alice" (some "coffee") [] + 1))
    ∧ read "alice" (some "coffee")
        (update "alice" (some "coffee") (some "+=") (some "3") []).1 =
        read "alice" (some "coffee") [] + 3
    ∧ read "bob" none (update "alice" (some "coffee") (some "-=") (some "3") []).1 =
        read "bob" none [] :=
  ⟨rfl,
    (C5_update_operator_semantics "alice" (some "coffee") [] none "3" 3 rfl).1.1,
    (C5_update_operator_semantics "alice" (some "coffee") [] none "3" 3 rfl).2.2.1.2,
    ((C5_update_operator_semantics "alice" (some "coffee") [] none "3" 3 rfl).2.2.2.2
      "bob" none (by simp)).2.2.2⟩

/-- C6: an apply with a null operator performs no mutation and reports the
currently stored value; iterating such a no-operator query any number of
times leaves the ledger identical. -/
theorem C6_null_operator_is_pure_read (name : String) (prop : Option String)
    (operand : Option String) (props : Ledger) :
    update name prop none operand props =
      (props, Except.ok (message name prop (read name prop props)))
    ∧ ∀ n : Nat,
        Nat.iterate (fun l => (update name prop none operand l).1) n props = props := by
  refine ⟨update_not_truthy name prop none operand props rfl, ?_⟩
  intro n
  induction n with
  | zero => rfl
  | succ m ih =>
    have hstep : (update name prop none operand props).1 = props := by
      rw [update_not_truthy name prop none operand props rfl]
    rw [Function.iterate_succ_apply]
    simpa [hstep] using ih

/-- C7: in every ledger reachable from the empty initial ledger by a
sequence of applies, every `(target, property)` pair that no operation in
the sequence mutated (i.e. targeted with a truthy operator) reads 0. -/
theorem C7_unmutated_pairs_read_zero (ops : List Op) (t : String)
    (p : Option String)
    (h : ∀ o ∈ ops, truthy o.operator = true → ¬(o.name = t ∧ o.prop = p)) :
    read t p (applyOps ops []) = 0 :=
  applyOps_read_zero ops [] rfl h

/-- Witness for C7: after incrementing `(alice, None)` and failing a
`+=` on `(alice, tea)` from the empty ledger, the untouched pair
`(bob, None)` still reads 0. -/
theorem C7_witness :
    (∀ o ∈ [Op.mk "alice" none (some "++") none,
            Op.mk "alice" (some "tea") (some "+=") none],
        truthy o.operator = true → ¬(o.name = "bob" ∧ o.prop = none))
    ∧ read "bob" none (applyOps [Op.mk "alice" none (some "++") none,
        Op.mk "alice" (some "tea") (some "+=") none] []) = 0 :=
  ⟨by decide, C7_unmutated_pairs_read_zero _ "bob" none (by decide)⟩

/-- C8: for every inbound event whose parsed target is not in the
originating channel's member list, the handler leaves the ledger unchanged
and posts no reply, regardless of how well-formed the command text is. -/
theorem C8_nonmember_no_effect (cfg : String) (env : SlackEnv) (body : Body)
    (props : Ledger)
    (h : ∀ n ms, eventTarget body = some n →
      members_in_channel env = Except.ok ms → n ∉ ms) :
    (slack_events cfg env body props).1 = props
    ∧ (slack_events cfg env body props).2.1 = [] := by
  obtain ⟨chal, evOpt⟩ := body
  cases chal with
  | some ch => exact ⟨rfl, rfl⟩
  | none =>
    cases evOpt with
    | none => exact ⟨rfl, rfl⟩
    | some ev =>
      obtain ⟨evch, evtext, evuser⟩ := ev
      cases evch with
      | none => exact ⟨rfl, rfl⟩
      | some ch =>
        simp only [slack_events]
        split
        · exact ⟨rfl, rfl⟩
        · split
          · exact ⟨rfl, rfl⟩
          · cases evtext with
            | none => exact ⟨rfl, rfl⟩
            | some t =>
              cases hm : members_in_channel env with
              | error e => simp [hm]
              | ok ms =>
                cases htg : (parse t).target with
                | none => simp [hm, htg]
                | some n =>
                  have hn : n ∉ ms := h n ms (by simp [eventTarget, htg]) hm
                  simp [hm, htg, hn]

/-- Witness for C8: the well-formed command `alice++` sent where the only
channel member is `bob` leaves the ledger untouched and sends nothing. -/
theorem C8_witness :
    (∀ n ms, eventTarget exampleBody = some n →
        members_in_channel exampleEnv = Except.ok ms → n ∉ ms)
    ∧ (slack_events "C" exampleEnv exampleBody exampleLedger).1 = exampleLedger
    ∧ (slack_events "C" exampleEnv exampleBody exampleLedger).2.1 = [] := by
  have hyp : ∀ n ms, eventTarget exampleBody = some n →
      members_in_channel exampleEnv = Except.ok ms → n ∉ ms := by
    intro n ms hn hm
    have he : eventTarget exampleBody = some "alice" := rfl
    rw [he] at hn
    injection hn with hn
    subst hn
    have hl : members_in_channel exampleEnv = Except.ok ["bob"] := rfl
    rw [hl] at hm
    injection hm with hm
    subst hm
    decide
  exact ⟨hyp, (C8_nonmember_no_effect "C" exampleEnv exampleBody exampleLedger hyp).1,
    (C8_nonmember_no_effect "C" exampleEnv exampleBody exampleLedger hyp).2⟩

/-- C9: whenever processing a single request fails with any error, the
ledger entry of every target other than the request's parsed target is
unchanged; and a directory/membership lookup failure rejects the request
before any ledger mutation at all. -/
theorem C9_failure_frame (cfg : String) (env : SlackEnv) (body : Body)
    (props : Ledger) :
    (∀ e, (slack_events cfg env body props).2.2 = Except.error e →
        ∀ t : String, eventTarget body ≠ some t →
          lookupA t (slack_events cfg env body props).1 = lookupA t props)
    ∧ (∀ e, e = HandlerErr.membersList ∨ e = HandlerErr.channelsInfo →
        (slack_events cfg env body props).2.2 = Except.error e →
        (slack_events cfg env body props).1 = props) := by
  obtain ⟨chal, evOpt⟩ := body
  cases chal with
  | some ch => exact ⟨fun e he => absurd he (by simp [slack_events]),
      fun e _ _ => rfl⟩
  | none =>
    cases evOpt with
    | none => exact ⟨fun e he t _ => rfl, fun e _ _ => rfl⟩
    | some ev =>
      obtain ⟨evch, evtext, evuser⟩ := ev
      cases evch with
      | none => exact ⟨fun e he t _ => rfl, fun e _ _ => rfl⟩
      | some ch =>
        simp only [slack_events]
        split
        · exact ⟨fun e he => absurd he (by simp), fun e _ _ => rfl⟩
        · split
          · exact ⟨fun e he => absurd he (by simp), fun e _ _ => rfl⟩
          · cases evtext with
            | none => exact ⟨fun e he t _ => rfl, fun e _ _ => rfl⟩
            | some t =>
              dsimp only
              cases hm : members_in_channel env with
              | error e2 =>
                exact ⟨fun e he t2 _ => rfl, fun e _ _ => rfl⟩
              | ok ms =>
                dsimp only
                cases htg : (parse t).target with
                | none => exact ⟨fun e he t2 _ => rfl, fun e _ _ => rfl⟩
                | some n =>
                  dsimp only
                  by_cases hn : n ∈ ms
                  · rw [if_pos hn]
                    have het : eventTarget ⟨none, some ⟨some ch, some t, evuser⟩⟩ =
                        some n := by simp [eventTarget, htg]
                    cases hu : update n (parse t).prop (parse t).operator
                        (parse t).operand props with
                    | mk props2 r =>
                      cases r with
                      | ok msg =>
                        simp only [hu]
                        exact ⟨fun e he => absurd he (by simp),
                          fun e _ he => absurd he (by simp)⟩
                      | error ue =>
                        simp only [hu]
                        refine ⟨fun e _ t2 ht2 => ?_, fun e hcase he => ?_⟩
                        · have htn : t2 ≠ n := fun hh => ht2 (by rw [hh, het])
                          have := update_lookupA_frame n (parse t).prop
                            (parse t).operator (parse t).operand props htn
                          rw [hu] at this
                          exact this
                        · rcases hcase with hc | hc <;> subst hc <;>
                            exact absurd he (by simp)
                  · rw [if_neg hn]
                    exact ⟨fun e he => absurd he (by simp), fun e _ _ => rfl⟩

/-- Witness for C9: the failing command `alice+=` (missing operand) from a
member `alice` leaves `bob`'s ledger entry untouched even though the
request errors. -/
theorem C9_witness :
    (slack_events "C" exampleEnv2 exampleBody2 exampleLedger).2.2 =
      Except.error (HandlerErr.updateErr UpdateErr.typeError)
    ∧ eventTarget exampleBody2 ≠ some "bob"
    ∧ lookupA "bob" (slack_events "C" exampleEnv2 exampleBody2 exampleLedger).1 =
        lookupA "bob" exampleLedger :=
  ⟨rfl, by decide,
    (C9_failure_frame "C" exampleEnv2 exampleBody2 exampleLedger).1
      (HandlerErr.updateErr UpdateErr.typeError) rfl "bob" (by decide)⟩

end PropsBot
